import Mathlib

/-! Shallow embedding of the lr_calc expression evaluator
    (src/scanner.rs, src/ast.rs, src/evaluator.rs).

    Modelling conventions:
    * f64 values are modelled as exact rationals; every input a theorem
      below evaluates stays in the range where f64 arithmetic is exact.
    * Rust char::is_numeric / char::is_alphabetic are modelled at ASCII
      granularity (Char.isDigit / Char.isAlpha).
    * A Rust panic (malformed numeric literal, the unreachable conversion
      arms) and exhaustion of the fuel that drives the recursions are both
      modelled as the Option.none outcome of the fuelled functions; the
      fuel chosen by the top-level entry points is large enough for every
      input that terminates in the source.
-/

set_option maxRecDepth 10000

namespace LrCalc

/-- Token kinds produced by the scanner (scanner.rs, enum TokenType). -/
inductive STokenType : Type where
  | Number (n : ℚ)
  | Str (s : List Char)
  | Plus
  | Minus
  | Multiplication
  | Division
  | Modulo
  | Power
  | Factorial
  | Comma
  | Lparen
  | Rparen
  | Equals
  | Bar
  | End
  | None
  deriving DecidableEq

/-- A token together with the byte position of its first character
    (scanner.rs, struct Token). -/
structure Token where
  t : STokenType
  pos : Nat
  deriving DecidableEq

/-- Numeric value of a list of ASCII digit characters. -/
def digitsVal (cs : List Char) : Nat :=
  cs.foldl (fun a c => a * 10 + (c.toNat - 48)) 0

/-- Splits a list at the first occurrence of x: the part before, and the
    part after when x occurs at all. -/
def splitFirst (x : Char) : List Char → List Char × Option (List Char)
  | [] => ([], Option.none)
  | c :: cs =>
    if c = x then ([], Option.some cs)
    else
      let r := splitFirst x cs
      (c :: r.1, r.2)

/-- Applies an E-exponent part on top of a parsed mantissa. -/
def applyExp (m : ℚ) : Option (List Char) → Option ℚ
  | Option.none => Option.some m
  | Option.some e =>
    if e ≠ [] ∧ e.all Char.isDigit then Option.some (m * 10 ^ digitsVal e)
    else Option.none

/-- Models Rust f64 from_str restricted to the alphabet the scanner can
    capture (digits, the dot, the capital E); the accepted grammar is
    digits with an optional dot part and an optional exponent, with at
    least one mantissa digit.  Values are exact rationals. -/
def parse_f64 (cs : List Char) : Option ℚ :=
  let me := splitFirst 'E' cs
  let idf := splitFirst '.' me.1
  if idf.1.all Char.isDigit then
    match idf.2 with
    | Option.none =>
      if idf.1 = [] then Option.none
      else applyExp (digitsVal idf.1 : ℚ) me.2
    | Option.some f =>
      if f.all Char.isDigit ∧ ¬(idf.1 = [] ∧ f = []) then
        applyExp ((digitsVal idf.1 : ℚ) + (digitsVal f : ℚ) / 10 ^ f.length) me.2
      else Option.none
  else Option.none

/-- Character class that continues a numeric literal
    (scanner.rs, Scanner::take_number loop condition). -/
def isNumCont (c : Char) : Bool := c.isDigit || c == '.' || c == 'E'

/-- Models Scanner::take_number: the first character plus the greedily
    consumed tail, parsed as an f64; Option.none models the panic on a
    malformed literal.  Returns the token kind and the unconsumed rest. -/
def take_number (c : Char) (rest : List (Nat × Char)) :
    Option STokenType × List (Nat × Char) :=
  let body := c :: (rest.takeWhile (fun p => isNumCont p.2)).map Prod.snd
  let rest1 := rest.dropWhile (fun p => isNumCont p.2)
  (match parse_f64 body with
   | Option.some n => Option.some (STokenType.Number n)
   | Option.none => Option.none, rest1)

/-- Models Scanner::take_str: the first character plus the greedily
    consumed alphabetic tail. -/
def take_str (c : Char) (rest : List (Nat × Char)) :
    STokenType × List (Nat × Char) :=
  (STokenType.Str (c :: (rest.takeWhile (fun p => p.2.isAlpha)).map Prod.snd),
   rest.dropWhile (fun p => p.2.isAlpha))

/-- Models Scanner::get_next_token over the remaining (byte position,
    character) stream; Option.none models the malformed-number panic. -/
def get_next_token : List (Nat × Char) → Option (Token × List (Nat × Char))
  | [] => Option.some (⟨STokenType.End, 0⟩, [])
  | (i, c) :: rest =>
    if c = '+' then Option.some (⟨STokenType.Plus, i⟩, rest)
    else if c = '-' then Option.some (⟨STokenType.Minus, i⟩, rest)
    else if c = '/' then Option.some (⟨STokenType.Division, i⟩, rest)
    else if c = '%' then Option.some (⟨STokenType.Modulo, i⟩, rest)
    else if c = '^' then Option.some (⟨STokenType.Power, i⟩, rest)
    else if c = '!' then Option.some (⟨STokenType.Factorial, i⟩, rest)
    else if c = ',' then Option.some (⟨STokenType.Comma, i⟩, rest)
    else if c = '(' then Option.some (⟨STokenType.Lparen, i⟩, rest)
    else if c = ')' then Option.some (⟨STokenType.Rparen, i⟩, rest)
    else if c = '[' then Option.some (⟨STokenType.Lparen, i⟩, rest)
    else if c = ']' then Option.some (⟨STokenType.Rparen, i⟩, rest)
    else if c = '=' then Option.some (⟨STokenType.Equals, i⟩, rest)
    else if c = '|' then Option.some (⟨STokenType.Bar, i⟩, rest)
    else if c = '*' then
      match rest with
      | [] => Option.some (⟨STokenType.Multiplication, i⟩, [])
      | (_, d) :: rest2 =>
        if d = '*' then Option.some (⟨STokenType.Power, i⟩, rest2)
        else Option.some (⟨STokenType.Multiplication, i⟩, rest)
    else if c.isDigit || c = '.' then
      match take_number c rest with
      | (Option.some tt, rest1) => Option.some (⟨tt, i⟩, rest1)
      | (Option.none, _) => Option.none
    else if c.isAlpha then
      let sr := take_str c rest
      Option.some (⟨sr.1, i⟩, sr.2)
    else Option.some (⟨STokenType.None, i⟩, rest)

/-- The byte-indexed character stream of an input (str::char_indices). -/
def char_indices : Nat → List Char → List (Nat × Char)
  | _, [] => []
  | i, c :: cs => (i, c) :: char_indices (i + c.utf8Size) cs

/-- The loop of Scanner::scan, fuelled; Option.none models the
    malformed-number panic (or fuel exhaustion, which the fuel chosen by
    scan makes unreachable). -/
def scan_go : Nat → List (Nat × Char) → Option (List Token)
  | 0, _ => Option.none
  | fuel + 1, l =>
    match get_next_token l with
    | Option.none => Option.none
    | Option.some (tk, rest) =>
      if tk.t = STokenType.End then Option.some [⟨STokenType.End, 0⟩]
      else if tk.t = STokenType.None then scan_go fuel rest
      else
        match scan_go fuel rest with
        | Option.none => Option.none
        | Option.some ts => Option.some (tk :: ts)

/-- Models Scanner::new followed by Scanner::scan on a whole input. -/
def scan (cs : List Char) : Option (List Token) :=
  scan_go (cs.length + 1) (char_indices 0 cs)

/-- The token-cursor part of the Scanner (fields tokens / iter_index). -/
structure Scanner where
  tokens : List Token
  iter_index : Nat
  deriving DecidableEq

/-- Models Scanner::next: a fresh End token at or past the end of the
    sequence (without advancing), else the current token, advancing. -/
def Scanner.next (s : Scanner) : Token × Scanner :=
  if s.iter_index ≥ s.tokens.length then (⟨STokenType.End, 0⟩, s)
  else (s.tokens.getD s.iter_index ⟨STokenType.End, 0⟩, ⟨s.tokens, s.iter_index + 1⟩)

/-- Models Scanner::peek. -/
def Scanner.peek (s : Scanner) : Token :=
  if s.iter_index ≥ s.tokens.length then ⟨STokenType.End, 0⟩
  else s.tokens.getD s.iter_index ⟨STokenType.End, 0⟩

/-- k cursor advances in a row (k calls of Scanner::next). -/
def Scanner.advanceN (s : Scanner) : Nat → Scanner
  | 0 => s
  | k + 1 => (s.next.2).advanceN k

namespace Ast

/-- AST node kinds (ast.rs, enum TokenType). -/
inductive TokenType : Type where
  | Number (n : ℚ)
  | Plus
  | Minus
  | Multiply
  | Divide
  | Bar
  | Factorial
  | Modulo
  | PrefixMinus
  | PrefixPlus
  deriving DecidableEq

/-- ast.rs, struct Node; both children are optional owned subtrees. -/
inductive Node : Type where
  | mk (token : TokenType) (left : Option Node) (right : Option Node)

/-- ast.rs, type NodePtr = Option of an owned Node. -/
abbrev NodePtr := Option Node

/-- Models Ast::infix_binding_power (left/right binding powers of the
    binary operators); renamed because of a lexical restriction. -/
def binary_binding_power : STokenType → Option (Nat × Nat)
  | STokenType.Plus => Option.some (1, 2)
  | STokenType.Minus => Option.some (1, 2)
  | STokenType.Multiplication => Option.some (3, 4)
  | STokenType.Division => Option.some (3, 4)
  | STokenType.Modulo => Option.some (3, 4)
  | _ => Option.none

/-- Models Ast::prefix_binding_power; renamed for the same reason. -/
def pre_binding_power : STokenType → Option (Unit × Nat)
  | STokenType.Plus => Option.some ((), 5)
  | STokenType.Minus => Option.some ((), 5)
  | _ => Option.none

/-- Models Ast::postfix_binding_power; renamed for the same reason. -/
def post_binding_power : STokenType → Option (Nat × Unit)
  | STokenType.Factorial => Option.some (7, ())
  | _ => Option.none

/-- Models Ast::is_operator. -/
def is_operator : STokenType → Bool
  | STokenType.Minus => true
  | STokenType.Modulo => true
  | STokenType.Plus => true
  | STokenType.Multiplication => true
  | STokenType.Division => true
  | STokenType.Factorial => true
  | _ => false

/-- Stand-in for the Debug formatting of an f64 payload; only the
    operator arms of debug_fmt occur in any message a claim constrains. -/
def ratDebug (q : ℚ) : String := toString q.num ++ "/" ++ toString q.den

/-- Rust derive(Debug) rendering of scanner token kinds. -/
def debug_fmt : STokenType → String
  | STokenType.Number n => "Number(" ++ ratDebug n ++ ")"
  | STokenType.Str s => "Str(\"" ++ String.mk s ++ "\")"
  | STokenType.Plus => "Plus"
  | STokenType.Minus => "Minus"
  | STokenType.Multiplication => "Multiplication"
  | STokenType.Division => "Division"
  | STokenType.Modulo => "Modulo"
  | STokenType.Power => "Power"
  | STokenType.Factorial => "Factorial"
  | STokenType.Comma => "Comma"
  | STokenType.Lparen => "Lparen"
  | STokenType.Rparen => "Rparen"
  | STokenType.Equals => "Equals"
  | STokenType.Bar => "Bar"
  | STokenType.End => "End"
  | STokenType.None => "None"

/-- Rust derive(Debug) rendering of a whole Token struct value. -/
def debug_token (tk : Token) : String :=
  "Token \x7b t: " ++ debug_fmt tk.t ++ ", pos: " ++ toString tk.pos ++ " \x7d"

/-- Models Ast::scanner_token_to_ast_token; Option.none models its panic
    arm (which the parser never reaches). -/
def scanner_token_to_ast_token : STokenType → Option TokenType
  | STokenType.Number n => Option.some (TokenType.Number n)
  | STokenType.Plus => Option.some TokenType.Plus
  | STokenType.Minus => Option.some TokenType.Minus
  | STokenType.Multiplication => Option.some TokenType.Multiply
  | STokenType.Division => Option.some TokenType.Divide
  | STokenType.Factorial => Option.some TokenType.Factorial
  | STokenType.Bar => Option.some TokenType.Bar
  | STokenType.Modulo => Option.some TokenType.Modulo
  | _ => Option.none

/-- Models Ast::scanner_token_to_prefix_token (renamed because of a
    lexical restriction); Option.none models its panic arm. -/
def scanner_token_to_pre_token : STokenType → Option TokenType
  | STokenType.Plus => Option.some TokenType.PrefixPlus
  | STokenType.Minus => Option.some TokenType.PrefixMinus
  | _ => Option.none

/-- Models Ast::log_error: the message chosen from the previous token and
    the End token just read (the source strings are copied verbatim,
    misspellings included). -/
def log_error (prev tk : Token) : String :=
  if is_operator prev.t = true ∧ tk.t = STokenType.End then
    "Operator " ++ debug_fmt prev.t ++ " at pos " ++ toString prev.pos ++
      " expects an operand, but gets End!"
  else if prev.t = STokenType.None ∧ tk.t = STokenType.End then
    "Empty expression!"
  else
    "Unkown error! Prev token " ++ debug_fmt prev.t ++ " at pos " ++
      toString prev.pos ++ ", last token " ++ debug_fmt tk.t ++ " at pos " ++
      toString tk.pos

mutual

/-- Models Ast::parse_lhs; the outer Option models panic or fuel
    exhaustion. -/
def parse_lhs : Nat → Scanner → Token → Option (Except String (NodePtr × Scanner))
  | 0, _, _ => Option.none
  | fuel + 1, s, prev_token =>
    let ns := s.next
    let token := ns.1
    let s1 := ns.2
    match token.t with
    | STokenType.Number n =>
      Option.some (Except.ok
        (Option.some (Node.mk (TokenType.Number n) Option.none Option.none), s1))
    | STokenType.Lparen =>
      match parse_expr fuel 0 s1 token with
      | Option.none => Option.none
      | Option.some (Except.error e) => Option.some (Except.error e)
      | Option.some (Except.ok (lhs, s2)) =>
        let ns2 := s2.next
        if ns2.1.t ≠ STokenType.Rparen then
          Option.some (Except.error
            ("Expected RParen is not found! LParen pos = " ++ toString token.pos))
        else Option.some (Except.ok (lhs, ns2.2))
    | STokenType.Bar =>
      match parse_expr fuel 0 s1 token with
      | Option.none => Option.none
      | Option.some (Except.error e) => Option.some (Except.error e)
      | Option.some (Except.ok (inner, s2)) =>
        let lhs := Option.some (Node.mk TokenType.Bar inner Option.none)
        let ns2 := s2.next
        if ns2.1.t ≠ STokenType.Bar then
          Option.some (Except.error
            ("Expected Bar is not found! First Bar  pos = " ++ toString token.pos))
        else Option.some (Except.ok (lhs, ns2.2))
    | STokenType.End => Option.some (Except.error (log_error prev_token token))
    | _ =>
      if is_operator token.t then
        match pre_binding_power token.t with
        | Option.some (_, r_bp) =>
          match parse_expr fuel r_bp s1 token with
          | Option.none => Option.none
          | Option.some (Except.error e) => Option.some (Except.error e)
          | Option.some (Except.ok (rhs, s2)) =>
            match scanner_token_to_pre_token token.t with
            | Option.none => Option.none
            | Option.some k =>
              Option.some (Except.ok (Option.some (Node.mk k rhs Option.none), s2))
        | Option.none =>
          Option.some (Except.error
            ("Unknown prefix operator " ++ debug_fmt token.t ++ " at pos " ++
              toString token.pos ++ "!"))
      else
        Option.some (Except.error ("Unknown token! " ++ debug_token token))

/-- Models Ast::parse_expr up to its loop. -/
def parse_expr : Nat → Nat → Scanner → Token → Option (Except String (NodePtr × Scanner))
  | 0, _, _, _ => Option.none
  | fuel + 1, min_bp, s, prev_token =>
    match parse_lhs fuel s prev_token with
    | Option.none => Option.none
    | Option.some (Except.error e) => Option.some (Except.error e)
    | Option.some (Except.ok (lhs, s1)) => parse_loop fuel min_bp s1 lhs

/-- The loop body of Ast::parse_expr. -/
def parse_loop : Nat → Nat → Scanner → NodePtr → Option (Except String (NodePtr × Scanner))
  | 0, _, _, _ => Option.none
  | fuel + 1, min_bp, s, lhs =>
    let token := s.peek
    if is_operator token.t = true ∨ token.t = STokenType.Rparen ∨
        token.t = STokenType.Bar then
      match post_binding_power token.t with
      | Option.some (l_bp, _) =>
        if l_bp < min_bp then Option.some (Except.ok (lhs, s))
        else
          let s1 := s.next.2
          match scanner_token_to_ast_token token.t with
          | Option.none => Option.none
          | Option.some k =>
            parse_loop fuel min_bp s1 (Option.some (Node.mk k lhs Option.none))
      | Option.none =>
        match binary_binding_power token.t with
        | Option.some (l_bp, r_bp) =>
          if l_bp < min_bp then Option.some (Except.ok (lhs, s))
          else
            let s1 := s.next.2
            match scanner_token_to_ast_token token.t with
            | Option.none => Option.none
            | Option.some k =>
              match parse_expr fuel r_bp s1 token with
              | Option.none => Option.none
              | Option.some (Except.error e) => Option.some (Except.error e)
              | Option.some (Except.ok (rhs, s2)) =>
                parse_loop fuel min_bp s2 (Option.some (Node.mk k lhs rhs))
        | Option.none => Option.some (Except.ok (lhs, s))
    else if token.t = STokenType.End then Option.some (Except.ok (lhs, s))
    else
      Option.some (Except.error
        ("Unkown token " ++ debug_fmt token.t ++ " at pos " ++
          toString token.pos ++ "!"))

end

/-- Fuel that is sufficient for the parser on a given token list. -/
def parse_fuel (tokens : List Token) : Nat := 3 * tokens.length + 3

/-- Models Ast::build: parse_expr at binding power 0 with the initial
    previous token of kind None at position 0. -/
def build (tokens : List Token) : Option (Except String NodePtr) :=
  match parse_expr (parse_fuel tokens) 0 ⟨tokens, 0⟩ ⟨STokenType.None, 0⟩ with
  | Option.none => Option.none
  | Option.some (Except.error e) => Option.some (Except.error e)
  | Option.some (Except.ok (ptr, _)) => Option.some (Except.ok ptr)

end Ast

/-- Truncating, saturating cast of a rational to u64 (Rust `n as u64`):
    negatives go to 0, the fractional part is dropped, values above the
    u64 range saturate. -/
def u64_of_rat (n : ℚ) : Nat := min (⌊n⌋).toNat (2 ^ 64 - 1)

/-- Models evaluator.rs factorial: the iterative product 2 * 3 * ... * n
    over the u64 cast of the operand (1 when the cast is below 2). -/
def factorial (n : ℚ) : ℚ :=
  (List.range' 2 (u64_of_rat n - 1)).foldl (fun (f : ℚ) (i : ℕ) => f * (i : ℚ)) 1

/-- Truncation toward zero of a rational (the rounding f64 % uses). -/
def ratTrunc (q : ℚ) : ℤ := if q < 0 then -⌊-q⌋ else ⌊q⌋

/-- Models the Rust f64 % (fmod): the remainder carrying the dividend
    sign. A zero divisor yields NaN for f64, which has no rational
    counterpart; the formula then returns the dividend (no claim below
    touches that case). -/
def fmod (l r : ℚ) : ℚ := l - r * (ratTrunc (l / r) : ℚ)

/-- The absolute value used for the Bar node (f64::abs). -/
def fabs (q : ℚ) : ℚ := if q < 0 then -q else q

/-- Models evaluator.rs recursion: tree-walking evaluation; an absent
    node evaluates to 0.  The catch-all panic arm of the source is
    unreachable: the match on node kinds is already exhaustive, which is
    why the Lean translation is total without it. -/
def recursion : Ast.NodePtr → ℚ
  | Option.none => 0
  | Option.some (Ast.Node.mk (Ast.TokenType.Number n) _ _) => n
  | Option.some (Ast.Node.mk Ast.TokenType.Modulo l r) => fmod (recursion l) (recursion r)
  | Option.some (Ast.Node.mk Ast.TokenType.PrefixMinus l _) => -recursion l
  | Option.some (Ast.Node.mk Ast.TokenType.PrefixPlus l _) => recursion l
  | Option.some (Ast.Node.mk Ast.TokenType.Plus l r) => recursion l + recursion r
  | Option.some (Ast.Node.mk Ast.TokenType.Minus l r) => recursion l - recursion r
  | Option.some (Ast.Node.mk Ast.TokenType.Factorial l _) => factorial (recursion l)
  | Option.some (Ast.Node.mk Ast.TokenType.Bar l _) => fabs (recursion l)
  | Option.some (Ast.Node.mk Ast.TokenType.Multiply l r) => recursion l * recursion r
  | Option.some (Ast.Node.mk Ast.TokenType.Divide l r) => recursion l / recursion r

/-- Models evaluator.rs evaluate: scan, build, then walk the tree;
    Option.none models a panic (malformed numeric literal). -/
def evaluate (expr : String) : Option (Except String ℚ) :=
  match scan expr.data with
  | Option.none => Option.none
  | Option.some tokens =>
    match Ast.build tokens with
    | Option.none => Option.none
    | Option.some (Except.error err_msg) =>
      Option.some (Except.error ("Ast build error! " ++ err_msg))
    | Option.some (Except.ok root) => Option.some (Except.ok (recursion root))

/-- The child shape each node kind requires: binary kinds need both
    children, unary kinds need the left child, Number is a leaf. -/
def childOk : Ast.TokenType → Ast.NodePtr → Ast.NodePtr → Bool
  | Ast.TokenType.Number _, _, _ => true
  | Ast.TokenType.Plus, l, r => l.isSome && r.isSome
  | Ast.TokenType.Minus, l, r => l.isSome && r.isSome
  | Ast.TokenType.Multiply, l, r => l.isSome && r.isSome
  | Ast.TokenType.Divide, l, r => l.isSome && r.isSome
  | Ast.TokenType.Modulo, l, r => l.isSome && r.isSome
  | Ast.TokenType.Factorial, l, _ => l.isSome
  | Ast.TokenType.Bar, l, _ => l.isSome
  | Ast.TokenType.PrefixMinus, l, _ => l.isSome
  | Ast.TokenType.PrefixPlus, l, _ => l.isSome

/-- Every node of the tree has the children its kind requires. -/
def wf : Ast.NodePtr → Bool
  | Option.none => true
  | Option.some (Ast.Node.mk k l r) => childOk k l r && wf l && wf r

end LrCalc

namespace LrCalc

deriving instance DecidableEq for Except

/-- Auxiliary: the iterative product over range' 2 k is the factorial of
    k + 1. -/
theorem range'_foldl_factorial (k : Nat) :
    (List.range' 2 k).foldl (fun (f : ℚ) (i : ℕ) => f * (i : ℚ)) 1 = ((k + 1).factorial : ℚ) := by
  induction k with
  | zero => simp [Nat.factorial]
  | succ n ih =>
    rw [List.range'_1_concat, List.foldl_append, ih]
    simp only [List.foldl_cons, List.foldl_nil, Nat.factorial_succ]
    push_cast
    ring

/-- Auxiliary: the fuelled factorial equals the mathematical factorial of
    the truncating u64 cast of the operand. -/
theorem factorial_eq_nat_factorial (q : ℚ) :
    factorial q = ((u64_of_rat q).factorial : ℚ) := by
  unfold factorial
  cases h : u64_of_rat q with
  | zero => simp [Nat.factorial]
  | succ n =>
    simpa [Nat.succ_sub_one] using range'_foldl_factorial n

/-- Auxiliary: the tree and value "2 * 3 + 4 * 5" evaluates to. -/
theorem eval_precedence_example :
    evaluate "2 * 3 + 4 * 5" = Option.some (Except.ok (26 : ℚ)) := by
  have h : evaluate "2 * 3 + 4 * 5" = Option.some (Except.ok (recursion
      (Option.some (Ast.Node.mk Ast.TokenType.Plus
        (Option.some (Ast.Node.mk Ast.TokenType.Multiply
          (Option.some (Ast.Node.mk (Ast.TokenType.Number 2) Option.none Option.none))
          (Option.some (Ast.Node.mk (Ast.TokenType.Number 3) Option.none Option.none))))
        (Option.some (Ast.Node.mk Ast.TokenType.Multiply
          (Option.some (Ast.Node.mk (Ast.TokenType.Number 4) Option.none Option.none))
          (Option.some (Ast.Node.mk (Ast.TokenType.Number 5) Option.none Option.none)))))))) := rfl
  rw [h]
  norm_num [recursion]

/-- C1 counterexample: the claim (copying the spec) says evaluate
    "2 * 3 + 4 * 5" returns Ok 23, but the code computes 6 + 20 = 26, so
    the claimed equality is false. -/
theorem precedence_spec_value_false :
    evaluate "2 * 3 + 4 * 5" ≠ Option.some (Except.ok (23 : ℚ)) := by
  norm_num [eval_precedence_example]

/-- C1 (amended): with the binding powers of the Pratt loop (+ and -
    infix left 1 right 2; *, / and % infix left 3 right 4), evaluate
    "2 * 3 + 4 * 5" is Ok 26 (not the 23 the spec example printed),
    "2 + 3! * 3" is Ok 20, and left-associativity gives Ok (-1) on
    "1 + 2 - 4". -/
theorem precedence_and_left_assoc :
    Ast.binary_binding_power STokenType.Plus = Option.some (1, 2) ∧
    Ast.binary_binding_power STokenType.Minus = Option.some (1, 2) ∧
    Ast.binary_binding_power STokenType.Multiplication = Option.some (3, 4) ∧
    Ast.binary_binding_power STokenType.Division = Option.some (3, 4) ∧
    Ast.binary_binding_power STokenType.Modulo = Option.some (3, 4) ∧
    evaluate "2 * 3 + 4 * 5" = Option.some (Except.ok (26 : ℚ)) ∧
    evaluate "2 + 3! * 3" = Option.some (Except.ok (20 : ℚ)) ∧
    evaluate "1 + 2 - 4" = Option.some (Except.ok (-1 : ℚ)) := by
  refine ⟨rfl, rfl, rfl, rfl, rfl, eval_precedence_example, ?_, ?_⟩
  · have h : evaluate "2 + 3! * 3" = Option.some (Except.ok (recursion
        (Option.some (Ast.Node.mk Ast.TokenType.Plus
          (Option.some (Ast.Node.mk (Ast.TokenType.Number 2) Option.none Option.none))
          (Option.some (Ast.Node.mk Ast.TokenType.Multiply
            (Option.some (Ast.Node.mk Ast.TokenType.Factorial
              (Option.some (Ast.Node.mk (Ast.TokenType.Number 3) Option.none Option.none))
              Option.none))
            (Option.some (Ast.Node.mk (Ast.TokenType.Number 3) Option.none Option.none)))))))) := rfl
    rw [h]
    norm_num [recursion, factorial_eq_nat_factorial,
      show u64_of_rat 3 = 3 from rfl, Nat.factorial]
  · have h : evaluate "1 + 2 - 4" = Option.some (Except.ok (recursion
        (Option.some (Ast.Node.mk Ast.TokenType.Minus
          (Option.some (Ast.Node.mk Ast.TokenType.Plus
            (Option.some (Ast.Node.mk (Ast.TokenType.Number 1) Option.none Option.none))
            (Option.some (Ast.Node.mk (Ast.TokenType.Number 2) Option.none Option.none))))
          (Option.some (Ast.Node.mk (Ast.TokenType.Number 4) Option.none Option.none)))))) := rfl
    rw [h]
    norm_num [recursion]

/-- C2: a Factorial node evaluates its operand and applies the fuelled
    factorial, which truncates through the u64 cast and multiplies
    2 * 3 * ... * n iteratively; that product equals the mathematical
    factorial of the truncation, so factorial of 0 and of 1 is 1;
    concretely "3!" and "(2 + 1)!" both evaluate to Ok 6. -/
theorem factorial_node_semantics :
    (∀ l r, recursion (Option.some (Ast.Node.mk Ast.TokenType.Factorial l r)) =
      factorial (recursion l)) ∧
    factorial 0 = 1 ∧ factorial 1 = 1 ∧
    (∀ q : ℚ, factorial q = ((u64_of_rat q).factorial : ℚ)) ∧
    evaluate "3!" = Option.some (Except.ok (6 : ℚ)) ∧
    evaluate "(2 + 1)!" = Option.some (Except.ok (6 : ℚ)) := by
  refine ⟨fun l r => by simp [recursion], rfl, rfl, factorial_eq_nat_factorial, ?_, ?_⟩
  · have h : evaluate "3!" = Option.some (Except.ok (recursion
        (Option.some (Ast.Node.mk Ast.TokenType.Factorial
          (Option.some (Ast.Node.mk (Ast.TokenType.Number 3) Option.none Option.none))
          Option.none)))) := rfl
    rw [h]
    norm_num [recursion, factorial_eq_nat_factorial,
      show u64_of_rat 3 = 3 from rfl, Nat.factorial]
  · have h : evaluate "(2 + 1)!" = Option.some (Except.ok (recursion
        (Option.some (Ast.Node.mk Ast.TokenType.Factorial
          (Option.some (Ast.Node.mk Ast.TokenType.Plus
            (Option.some (Ast.Node.mk (Ast.TokenType.Number 2) Option.none Option.none))
            (Option.some (Ast.Node.mk (Ast.TokenType.Number 1) Option.none Option.none))))
          Option.none)))) := rfl
    rw [h]
    have h3 : (2 : ℚ) + 1 = 3 := by norm_num
    norm_num [recursion, h3, factorial_eq_nat_factorial,
      show u64_of_rat 3 = 3 from rfl, Nat.factorial]

/-- C3: PrefixMinus negates its operand, PrefixPlus is the identity, Bar
    takes the absolute value (fabs agrees with the mathematical absolute
    value on ℚ); concretely "|-3|" is Ok 3, "|(4 - 6)| * 2" is Ok 4, and
    "-1 + 2" is Ok 1. -/
theorem unary_node_semantics :
    (∀ l r, recursion (Option.some (Ast.Node.mk Ast.TokenType.PrefixMinus l r)) =
      -recursion l) ∧
    (∀ l r, recursion (Option.some (Ast.Node.mk Ast.TokenType.PrefixPlus l r)) =
      recursion l) ∧
    (∀ l r, recursion (Option.some (Ast.Node.mk Ast.TokenType.Bar l r)) =
      fabs (recursion l)) ∧
    (∀ q : ℚ, fabs q = |q|) ∧
    evaluate "|-3|" = Option.some (Except.ok (3 : ℚ)) ∧
    evaluate "|(4 - 6)| * 2" = Option.some (Except.ok (4 : ℚ)) ∧
    evaluate "-1 + 2" = Option.some (Except.ok (1 : ℚ)) := by
  refine ⟨fun l r => by simp [recursion], fun l r => by simp [recursion],
    fun l r => by simp [recursion], ?_, ?_, ?_, ?_⟩
  · intro q
    unfold fabs
    rcases lt_or_ge q 0 with h | h
    · rw [if_pos h, abs_of_neg h]
    · rw [if_neg (not_lt.mpr h), abs_of_nonneg h]
  · have h : evaluate "|-3|" = Option.some (Except.ok (recursion
        (Option.some (Ast.Node.mk Ast.TokenType.Bar
          (Option.some (Ast.Node.mk Ast.TokenType.PrefixMinus
            (Option.some (Ast.Node.mk (Ast.TokenType.Number 3) Option.none Option.none))
            Option.none))
          Option.none)))) := rfl
    rw [h]
    norm_num [recursion, fabs]
  · have h : evaluate "|(4 - 6)| * 2" = Option.some (Except.ok (recursion
        (Option.some (Ast.Node.mk Ast.TokenType.Multiply
          (Option.some (Ast.Node.mk Ast.TokenType.Bar
            (Option.some (Ast.Node.mk Ast.TokenType.Minus
              (Option.some (Ast.Node.mk (Ast.TokenType.Number 4) Option.none Option.none))
              (Option.some (Ast.Node.mk (Ast.TokenType.Number 6) Option.none Option.none))))
            Option.none))
          (Option.some (Ast.Node.mk (Ast.TokenType.Number 2) Option.none Option.none)))))) := rfl
    rw [h]
    norm_num [recursion, fabs]
  · have h : evaluate "-1 + 2" = Option.some (Except.ok (recursion
        (Option.some (Ast.Node.mk Ast.TokenType.Plus
          (Option.some (Ast.Node.mk Ast.TokenType.PrefixMinus
            (Option.some (Ast.Node.mk (Ast.TokenType.Number 1) Option.none Option.none))
            Option.none))
          (Option.some (Ast.Node.mk (Ast.TokenType.Number 2) Option.none Option.none)))))) := rfl
    rw [h]
    norm_num [recursion]

/-- C4: at end of input where an operand was expected, the error depends
    on what preceded: a trailing operator is named with its position
    ("1 + " cites Plus at byte offset 2), a parse that consumed nothing
    reports an empty expression (""), and in every other case log_error
    produces the generic positional message. -/
theorem operand_expected_errors :
    evaluate "1 + " = Option.some (Except.error
      "Ast build error! Operator Plus at pos 2 expects an operand, but gets End!") ∧
    evaluate "" = Option.some (Except.error "Ast build error! Empty expression!") ∧
    (∀ prev tk : Token, tk.t = STokenType.End → Ast.is_operator prev.t = false →
      prev.t ≠ STokenType.None →
      Ast.log_error prev tk = "Unkown error! Prev token " ++ Ast.debug_fmt prev.t ++
        " at pos " ++ toString prev.pos ++ ", last token " ++ Ast.debug_fmt tk.t ++
        " at pos " ++ toString tk.pos) := by
  refine ⟨rfl, rfl, ?_⟩
  intro prev tk h1 h2 h3
  unfold Ast.log_error
  rw [if_neg, if_neg]
  · exact fun hc => h3 hc.1
  · exact fun hc => by rw [h2] at hc; exact Bool.false_ne_true hc.1

/-- C4 witness: the generic branch at a concrete input (an opening paren
    followed by end of input). -/
theorem operand_expected_errors_witness :
    Ast.log_error ⟨STokenType.Lparen, 0⟩ ⟨STokenType.End, 0⟩ =
      "Unkown error! Prev token Lparen at pos 0, last token End at pos 0" := by
  rw [operand_expected_errors.2.2 ⟨STokenType.Lparen, 0⟩ ⟨STokenType.End, 0⟩ rfl rfl
    (by decide)]
  rfl

/-- C5: after a parenthesized or bar-delimited sub-expression, the parser
    demands the matching closing token and otherwise returns (does not
    panic) a parse error naming the opening delimiter position; both
    "(1 + 2" and "|1 + 2" mention position 0. -/
theorem unmatched_delimiter_errors :
    evaluate "(1 + 2" = Option.some (Except.error
      "Ast build error! Expected RParen is not found! LParen pos = 0") ∧
    evaluate "|1 + 2" = Option.some (Except.error
      "Ast build error! Expected Bar is not found! First Bar  pos = 0") :=
  ⟨rfl, rfl⟩


/-- C9: when the parse loop peeks an RParen or a Bar token it stops and
    returns the accumulated left-hand side unchanged, so a stray closing
    delimiter after a complete expression is silently accepted: "1)" and
    "1|" both evaluate to Ok 1 with the leftover token ignored. -/
theorem stray_closing_delimiter_accepted :
    (∀ (fuel min_bp : Nat) (s : Scanner) (lhs : Ast.NodePtr),
      s.peek.t = STokenType.Rparen ∨ s.peek.t = STokenType.Bar →
      Ast.parse_loop (fuel + 1) min_bp s lhs = Option.some (Except.ok (lhs, s))) ∧
    evaluate "1)" = Option.some (Except.ok (1 : ℚ)) ∧
    evaluate "1|" = Option.some (Except.ok (1 : ℚ)) := by
  have h1 : evaluate "1)" = Option.some (Except.ok (recursion
      (Option.some (Ast.Node.mk (Ast.TokenType.Number 1) Option.none Option.none)))) := rfl
  have h2 : evaluate "1|" = Option.some (Except.ok (recursion
      (Option.some (Ast.Node.mk (Ast.TokenType.Number 1) Option.none Option.none)))) := rfl
  refine ⟨?_, by rw [h1]; norm_num [recursion], by rw [h2]; norm_num [recursion]⟩
  intro fuel min_bp s lhs h
  rcases h with h | h <;>
    simp [Ast.parse_loop, h, Ast.is_operator, Ast.post_binding_power,
      Ast.binary_binding_power]

/-- C9 witness: the loop-stop behavior at a concrete cursor whose current
    token is an RParen. -/
theorem stray_closing_delimiter_accepted_witness :
    Ast.parse_loop 1 0 ⟨[⟨STokenType.Rparen, 5⟩], 0⟩ Option.none =
      Option.some (Except.ok (Option.none, ⟨[⟨STokenType.Rparen, 5⟩], 0⟩)) :=
  stray_closing_delimiter_accepted.1 0 0 ⟨[⟨STokenType.Rparen, 5⟩], 0⟩ Option.none
    (Or.inl rfl)

/-- C10: the scanner turns both a caret and a double star into a Power
    token, but the parser gives Power no binding power of any kind and
    does not count it as an operator, so the parse loop turns a peeked
    Power token into an unknown-token error; "2^3" and "2**3" both fail
    with that error instead of computing a power. -/
theorem power_token_rejected :
    Ast.binary_binding_power STokenType.Power = Option.none ∧
    Ast.pre_binding_power STokenType.Power = Option.none ∧
    Ast.post_binding_power STokenType.Power = Option.none ∧
    Ast.is_operator STokenType.Power = false ∧
    scan "2^3".data = Option.some [⟨STokenType.Number 2, 0⟩, ⟨STokenType.Power, 1⟩,
      ⟨STokenType.Number 3, 2⟩, ⟨STokenType.End, 0⟩] ∧
    scan "2**3".data = Option.some [⟨STokenType.Number 2, 0⟩, ⟨STokenType.Power, 1⟩,
      ⟨STokenType.Number 3, 3⟩, ⟨STokenType.End, 0⟩] ∧
    (∀ (fuel min_bp : Nat) (s : Scanner) (lhs : Ast.NodePtr),
      s.peek.t = STokenType.Power →
      Ast.parse_loop (fuel + 1) min_bp s lhs = Option.some (Except.error
        ("Unkown token " ++ Ast.debug_fmt STokenType.Power ++ " at pos " ++
          toString s.peek.pos ++ "!"))) ∧
    evaluate "2^3" = Option.some (Except.error
      "Ast build error! Unkown token Power at pos 1!") ∧
    evaluate "2**3" = Option.some (Except.error
      "Ast build error! Unkown token Power at pos 1!") := by
  refine ⟨rfl, rfl, rfl, rfl, rfl, rfl, ?_, rfl, rfl⟩
  intro fuel min_bp s lhs h
  simp [Ast.parse_loop, h, Ast.is_operator]

/-- C10 witness: the unknown-token error at a concrete cursor whose
    current token is Power. -/
theorem power_token_rejected_witness :
    Ast.parse_loop 1 0 ⟨[⟨STokenType.Power, 1⟩], 0⟩ Option.none =
      Option.some (Except.error "Unkown token Power at pos 1!") := by
  rw [power_token_rejected.2.2.2.2.2.2.1 0 0 ⟨[⟨STokenType.Power, 1⟩], 0⟩
    Option.none rfl]
  rfl


/-- Auxiliary: advancing the cursor k times from position i clamps the
    index at the sequence length (next never moves past the end). -/
theorem advanceN_clamp (ts : List Token) : ∀ (k i : Nat), i ≤ ts.length →
    Scanner.advanceN ⟨ts, i⟩ k = ⟨ts, min (i + k) ts.length⟩ := by
  intro k
  induction k with
  | zero =>
    intro i hi
    simp only [Scanner.advanceN]
    congr 1
    omega
  | succ n ih =>
    intro i hi
    simp only [Scanner.advanceN, Scanner.next]
    by_cases hge : i ≥ ts.length
    · simp only [hge, ite_true, if_pos]
      rw [ih i hi]
      congr 1
      omega
    · rw [if_neg hge]
      rw [ih (i + 1) (by omega)]
      congr 1
      omega

/-- C8: for every token sequence and every number of cursor advances at
    least the sequence length, peek returns the End sentinel and next
    returns the End sentinel without moving the cursor. -/
theorem past_end_yields_end_sentinel (ts : List Token) (k : Nat)
    (h : ts.length ≤ k) :
    (Scanner.advanceN ⟨ts, 0⟩ k).peek = ⟨STokenType.End, 0⟩ ∧
    (Scanner.advanceN ⟨ts, 0⟩ k).next.1 = ⟨STokenType.End, 0⟩ ∧
    (Scanner.advanceN ⟨ts, 0⟩ k).next.2 = Scanner.advanceN ⟨ts, 0⟩ k := by
  rw [advanceN_clamp ts k 0 (Nat.zero_le _)]
  have hm : min (0 + k) ts.length = ts.length := by omega
  rw [hm]
  refine ⟨?_, ?_, ?_⟩ <;> simp [Scanner.peek, Scanner.next]

/-- C8 witness: reading three positions past a one-token sequence still
    yields the End sentinel. -/
theorem past_end_yields_end_sentinel_witness :
    (Scanner.advanceN ⟨[⟨STokenType.Plus, 0⟩], 0⟩ 3).peek = ⟨STokenType.End, 0⟩ ∧
    (Scanner.advanceN ⟨[⟨STokenType.Plus, 0⟩], 0⟩ 3).next.1 = ⟨STokenType.End, 0⟩ ∧
    (Scanner.advanceN ⟨[⟨STokenType.Plus, 0⟩], 0⟩ 3).next.2 =
      Scanner.advanceN ⟨[⟨STokenType.Plus, 0⟩], 0⟩ 3 :=
  past_end_yields_end_sentinel [⟨STokenType.Plus, 0⟩] 3 (by decide)

/-- Auxiliary: any token list the scan loop returns consists of tokens
    that are neither End nor None, closed by a single End sentinel. -/
theorem scan_go_shape : ∀ (fuel : Nat) (l : List (Nat × Char)) (ts : List Token),
    scan_go fuel l = Option.some ts →
    ∃ pre, ts = pre ++ [⟨STokenType.End, 0⟩] ∧
      ∀ tk ∈ pre, tk.t ≠ STokenType.End ∧ tk.t ≠ STokenType.None := by
  intro fuel
  induction fuel with
  | zero => intro l ts h; simp [scan_go] at h
  | succ n ih =>
    intro l ts h
    cases hg : get_next_token l with
    | none => simp [scan_go, hg] at h
    | some pr =>
      obtain ⟨tk, rest⟩ := pr
      simp only [scan_go, hg] at h
      by_cases he : tk.t = STokenType.End
      · simp only [he, if_pos, ite_true] at h
        refine ⟨[], ?_, by simp⟩
        simpa using h.symm
      · by_cases hn : tk.t = STokenType.None
        · simp only [he, hn, if_neg, if_pos, ite_false, ite_true] at h
          exact ih rest ts h
        · simp only [he, hn, if_neg, ite_false] at h
          cases hr : scan_go n rest with
          | none => rw [hr] at h; simp at h
          | some ts2 =>
            rw [hr] at h
            simp at h
            obtain ⟨pre, hpre, hall⟩ := ih rest ts2 hr
            refine ⟨tk :: pre, ?_, ?_⟩
            · rw [← h, hpre]
              rfl
            · intro x hx
              rcases List.mem_cons.mp hx with hx | hx
              · subst hx; exact ⟨he, hn⟩
              · exact hall x hx

/-- C7: every token sequence scan produces is nonempty, its last element
    is the End sentinel, End occurs exactly once, and no None token
    appears anywhere in it. -/
theorem scan_sequence_end_invariant (cs : List Char) (ts : List Token)
    (h : scan cs = Option.some ts) :
    ts ≠ [] ∧ ts.getLast? = Option.some ⟨STokenType.End, 0⟩ ∧
    ts.countP (fun tk => tk.t == STokenType.End) = 1 ∧
    ∀ tk ∈ ts, tk.t ≠ STokenType.None := by
  obtain ⟨pre, hpre, hall⟩ := scan_go_shape _ _ _ h
  subst hpre
  refine ⟨by simp, List.getLast?_concat _, ?_, ?_⟩
  · rw [List.countP_append]
    have h0 : pre.countP (fun tk => tk.t == STokenType.End) = 0 :=
      List.countP_eq_zero.mpr (fun tk htk => by simp [(hall tk htk).1])
    rw [h0]
    simp
  · intro tk htk
    rcases List.mem_append.mp htk with hm | hm
    · exact (hall tk hm).2
    · simp only [List.mem_singleton] at hm
      subst hm
      simp


/-- C7 witness: the invariant at the concrete scan of "1+2". -/
theorem scan_sequence_end_invariant_witness :
    ([⟨STokenType.Number 1, 0⟩, ⟨STokenType.Plus, 1⟩, ⟨STokenType.Number 2, 2⟩,
        ⟨STokenType.End, 0⟩] : List Token) ≠ [] ∧
    ([⟨STokenType.Number 1, 0⟩, ⟨STokenType.Plus, 1⟩, ⟨STokenType.Number 2, 2⟩,
        ⟨STokenType.End, 0⟩] : List Token).getLast? =
      Option.some ⟨STokenType.End, 0⟩ ∧
    ([⟨STokenType.Number 1, 0⟩, ⟨STokenType.Plus, 1⟩, ⟨STokenType.Number 2, 2⟩,
        ⟨STokenType.End, 0⟩] : List Token).countP
      (fun tk => tk.t == STokenType.End) = 1 ∧
    ∀ tk ∈ ([⟨STokenType.Number 1, 0⟩, ⟨STokenType.Plus, 1⟩,
        ⟨STokenType.Number 2, 2⟩, ⟨STokenType.End, 0⟩] : List Token),
      tk.t ≠ STokenType.None :=
  scan_sequence_end_invariant "1+2".data
    [⟨STokenType.Number 1, 0⟩, ⟨STokenType.Plus, 1⟩, ⟨STokenType.Number 2, 2⟩,
      ⟨STokenType.End, 0⟩] rfl

/-- Auxiliary: combined induction on fuel showing every Ok result of
    parse_lhs, parse_expr and parse_loop is a present, well-formed tree
    (parse_loop assuming its accumulated left-hand side is). -/
theorem parse_wf : ∀ (fuel : Nat),
    (∀ (s : Scanner) (prev : Token) (ptr : Ast.NodePtr) (s2 : Scanner),
      Ast.parse_lhs fuel s prev = Option.some (Except.ok (ptr, s2)) →
      ptr.isSome = true ∧ wf ptr = true) ∧
    (∀ (min_bp : Nat) (s : Scanner) (prev : Token) (ptr : Ast.NodePtr) (s2 : Scanner),
      Ast.parse_expr fuel min_bp s prev = Option.some (Except.ok (ptr, s2)) →
      ptr.isSome = true ∧ wf ptr = true) ∧
    (∀ (min_bp : Nat) (s : Scanner) (lhs : Ast.NodePtr) (ptr : Ast.NodePtr) (s2 : Scanner),
      lhs.isSome = true → wf lhs = true →
      Ast.parse_loop fuel min_bp s lhs = Option.some (Except.ok (ptr, s2)) →
      ptr.isSome = true ∧ wf ptr = true) := by
  intro fuel
  induction fuel with
  | zero =>
    refine ⟨?_, ?_, ?_⟩
    · intro s prev ptr s2 h
      simp [Ast.parse_lhs] at h
    · intro min_bp s prev ptr s2 h
      simp [Ast.parse_expr] at h
    · intro min_bp s lhs ptr s2 hsome hwf h
      simp [Ast.parse_loop] at h
  | succ n ih =>
    obtain ⟨ihl, ihe, ihp⟩ := ih
    refine ⟨?_, ?_, ?_⟩
    · intro s prev ptr s2 h
      simp only [Ast.parse_lhs] at h
      rcases hsn : s.next with ⟨tok, s1⟩
      rw [hsn] at h
      dsimp only at h
      cases htt : tok.t <;> rw [htt] at h
      case Number m =>
        simp only [Option.some.injEq, Except.ok.injEq, Prod.mk.injEq] at h
        obtain ⟨h1, h2⟩ := h
        subst h1
        simp [wf, childOk]
      case Str a => simp [Ast.is_operator] at h
      case Plus =>
        simp [Ast.is_operator, Ast.pre_binding_power, Ast.scanner_token_to_pre_token] at h
        cases hpe : Ast.parse_expr n 5 s1 tok with
        | none => rw [hpe] at h; simp at h
        | some r =>
          rw [hpe] at h
          cases r with
          | error e => simp at h
          | ok pr =>
            obtain ⟨rhs, s3⟩ := pr
            obtain ⟨hs, hw⟩ := ihe 5 s1 tok rhs s3 hpe
            simp only [Option.some.injEq, Except.ok.injEq, Prod.mk.injEq] at h
            obtain ⟨h1, h2⟩ := h
            subst h1
            simp [wf, childOk, hs, hw]
      case Minus =>
        simp [Ast.is_operator, Ast.pre_binding_power, Ast.scanner_token_to_pre_token] at h
        cases hpe : Ast.parse_expr n 5 s1 tok with
        | none => rw [hpe] at h; simp at h
        | some r =>
          rw [hpe] at h
          cases r with
          | error e => simp at h
          | ok pr =>
            obtain ⟨rhs, s3⟩ := pr
            obtain ⟨hs, hw⟩ := ihe 5 s1 tok rhs s3 hpe
            simp only [Option.some.injEq, Except.ok.injEq, Prod.mk.injEq] at h
            obtain ⟨h1, h2⟩ := h
            subst h1
            simp [wf, childOk, hs, hw]
      case Multiplication => simp [Ast.is_operator, Ast.pre_binding_power] at h
      case Division => simp [Ast.is_operator, Ast.pre_binding_power] at h
      case Modulo => simp [Ast.is_operator, Ast.pre_binding_power] at h
      case Power => simp [Ast.is_operator] at h
      case Factorial => simp [Ast.is_operator, Ast.pre_binding_power] at h
      case Comma => simp [Ast.is_operator] at h
      case Lparen =>
        cases hpe : Ast.parse_expr n 0 s1 tok with
        | none => rw [hpe] at h; simp at h
        | some r =>
          rw [hpe] at h
          cases r with
          | error e => simp at h
          | ok pr =>
            obtain ⟨lhs1, s3⟩ := pr
            obtain ⟨hs, hw⟩ := ihe 0 s1 tok lhs1 s3 hpe
            by_cases hrp : (s3.next).1.t = STokenType.Rparen
            · simp [hrp] at h
              obtain ⟨h1, h2⟩ := h
              subst h1
              exact ⟨hs, hw⟩
            · simp [hrp] at h
      case Rparen => simp [Ast.is_operator] at h
      case Equals => simp [Ast.is_operator] at h
      case Bar =>
        cases hpe : Ast.parse_expr n 0 s1 tok with
        | none => rw [hpe] at h; simp at h
        | some r =>
          rw [hpe] at h
          cases r with
          | error e => simp at h
          | ok pr =>
            obtain ⟨inner, s3⟩ := pr
            obtain ⟨hs, hw⟩ := ihe 0 s1 tok inner s3 hpe
            by_cases hrp : (s3.next).1.t = STokenType.Bar
            · simp [hrp] at h
              obtain ⟨h1, h2⟩ := h
              subst h1
              simp [wf, childOk, hs, hw]
            · simp [hrp] at h
      case End => simp at h
      case None => simp [Ast.is_operator] at h
    · intro min_bp s prev ptr s2 h
      simp only [Ast.parse_expr] at h
      cases hpl : Ast.parse_lhs n s prev with
      | none => rw [hpl] at h; simp at h
      | some r =>
        rw [hpl] at h
        cases r with
        | error e => simp at h
        | ok pr =>
          obtain ⟨lhs, s1⟩ := pr
          dsimp only at h
          obtain ⟨hs, hw⟩ := ihl s prev lhs s1 hpl
          exact ihp min_bp s1 lhs ptr s2 hs hw h
    · intro min_bp s lhs ptr s2 hsome hwf h
      simp only [Ast.parse_loop] at h
      cases htt : (s.peek).t <;> rw [htt] at h
      case Number m => simp [Ast.is_operator, Ast.post_binding_power, Ast.binary_binding_power, Ast.scanner_token_to_ast_token] at h
      case Str a => simp [Ast.is_operator, Ast.post_binding_power, Ast.binary_binding_power, Ast.scanner_token_to_ast_token] at h
      case Plus =>
        by_cases hlt : 1 < min_bp
        · simp [hlt, Ast.is_operator, Ast.post_binding_power, Ast.binary_binding_power, Ast.scanner_token_to_ast_token] at h
          obtain ⟨h1, h2⟩ := h
          subst h1
          exact ⟨hsome, hwf⟩
        · simp [hlt, Ast.is_operator, Ast.post_binding_power, Ast.binary_binding_power, Ast.scanner_token_to_ast_token] at h
          cases hpe : Ast.parse_expr n 2 s.next.2 s.peek with
          | none => rw [hpe] at h; simp at h
          | some r =>
            rw [hpe] at h
            cases r with
            | error e => simp at h
            | ok pr =>
              obtain ⟨rhs, s3⟩ := pr
              dsimp only at h
              obtain ⟨hrs, hrw⟩ := ihe 2 s.next.2 s.peek rhs s3 hpe
              exact ihp min_bp s3
                (Option.some (Ast.Node.mk Ast.TokenType.Plus lhs rhs)) ptr s2 rfl
                (by simp [wf, childOk, hsome, hwf, hrs, hrw]) h
      case Minus =>
        by_cases hlt : 1 < min_bp
        · simp [hlt, Ast.is_operator, Ast.post_binding_power, Ast.binary_binding_power, Ast.scanner_token_to_ast_token] at h
          obtain ⟨h1, h2⟩ := h
          subst h1
          exact ⟨hsome, hwf⟩
        · simp [hlt, Ast.is_operator, Ast.post_binding_power, Ast.binary_binding_power, Ast.scanner_token_to_ast_token] at h
          cases hpe : Ast.parse_expr n 2 s.next.2 s.peek with
          | none => rw [hpe] at h; simp at h
          | some r =>
            rw [hpe] at h
            cases r with
            | error e => simp at h
            | ok pr =>
              obtain ⟨rhs, s3⟩ := pr
              dsimp only at h
              obtain ⟨hrs, hrw⟩ := ihe 2 s.next.2 s.peek rhs s3 hpe
              exact ihp min_bp s3
                (Option.some (Ast.Node.mk Ast.TokenType.Minus lhs rhs)) ptr s2 rfl
                (by simp [wf, childOk, hsome, hwf, hrs, hrw]) h
      case Multiplication =>
        by_cases hlt : 3 < min_bp
        · simp [hlt, Ast.is_operator, Ast.post_binding_power, Ast.binary_binding_power, Ast.scanner_token_to_ast_token] at h
          obtain ⟨h1, h2⟩ := h
          subst h1
          exact ⟨hsome, hwf⟩
        · simp [hlt, Ast.is_operator, Ast.post_binding_power, Ast.binary_binding_power, Ast.scanner_token_to_ast_token] at h
          cases hpe : Ast.parse_expr n 4 s.next.2 s.peek with
          | none => rw [hpe] at h; simp at h
          | some r =>
            rw [hpe] at h
            cases r with
            | error e => simp at h
            | ok pr =>
              obtain ⟨rhs, s3⟩ := pr
              dsimp only at h
              obtain ⟨hrs, hrw⟩ := ihe 4 s.next.2 s.peek rhs s3 hpe
              exact ihp min_bp s3
                (Option.some (Ast.Node.mk Ast.TokenType.Multiply lhs rhs)) ptr s2 rfl
                (by simp [wf, childOk, hsome, hwf, hrs, hrw]) h
      case Division =>
        by_cases hlt : 3 < min_bp
        · simp [hlt, Ast.is_operator, Ast.post_binding_power, Ast.binary_binding_power, Ast.scanner_token_to_ast_token] at h
          obtain ⟨h1, h2⟩ := h
          subst h1
          exact ⟨hsome, hwf⟩
        · simp [hlt, Ast.is_operator, Ast.post_binding_power, Ast.binary_binding_power, Ast.scanner_token_to_ast_token] at h
          cases hpe : Ast.parse_expr n 4 s.next.2 s.peek with
          | none => rw [hpe] at h; simp at h
          | some r =>
            rw [hpe] at h
            cases r with
            | error e => simp at h
            | ok pr =>
              obtain ⟨rhs, s3⟩ := pr
              dsimp only at h
              obtain ⟨hrs, hrw⟩ := ihe 4 s.next.2 s.peek rhs s3 hpe
              exact ihp min_bp s3
                (Option.some (Ast.Node.mk Ast.TokenType.Divide lhs rhs)) ptr s2 rfl
                (by simp [wf, childOk, hsome, hwf, hrs, hrw]) h
      case Modulo =>
        by_cases hlt : 3 < min_bp
        · simp [hlt, Ast.is_operator, Ast.post_binding_power, Ast.binary_binding_power, Ast.scanner_token_to_ast_token] at h
          obtain ⟨h1, h2⟩ := h
          subst h1
          exact ⟨hsome, hwf⟩
        · simp [hlt, Ast.is_operator, Ast.post_binding_power, Ast.binary_binding_power, Ast.scanner_token_to_ast_token] at h
          cases hpe : Ast.parse_expr n 4 s.next.2 s.peek with
          | none => rw [hpe] at h; simp at h
          | some r =>
            rw [hpe] at h
            cases r with
            | error e => simp at h
            | ok pr =>
              obtain ⟨rhs, s3⟩ := pr
              dsimp only at h
              obtain ⟨hrs, hrw⟩ := ihe 4 s.next.2 s.peek rhs s3 hpe
              exact ihp min_bp s3
                (Option.some (Ast.Node.mk Ast.TokenType.Modulo lhs rhs)) ptr s2 rfl
                (by simp [wf, childOk, hsome, hwf, hrs, hrw]) h
      case Power => simp [Ast.is_operator, Ast.post_binding_power, Ast.binary_binding_power, Ast.scanner_token_to_ast_token] at h
      case Factorial =>
        by_cases hlt : 7 < min_bp
        · simp [hlt, Ast.is_operator, Ast.post_binding_power, Ast.binary_binding_power, Ast.scanner_token_to_ast_token] at h
          obtain ⟨h1, h2⟩ := h
          subst h1
          exact ⟨hsome, hwf⟩
        · simp [hlt, Ast.is_operator, Ast.post_binding_power, Ast.binary_binding_power, Ast.scanner_token_to_ast_token] at h
          exact ihp min_bp s.next.2
            (Option.some (Ast.Node.mk Ast.TokenType.Factorial lhs Option.none)) ptr s2 rfl
            (by simp [wf, childOk, hsome, hwf]) h
      case Comma => simp [Ast.is_operator, Ast.post_binding_power, Ast.binary_binding_power, Ast.scanner_token_to_ast_token] at h
      case Lparen => simp [Ast.is_operator, Ast.post_binding_power, Ast.binary_binding_power, Ast.scanner_token_to_ast_token] at h
      case Rparen =>
        simp [Ast.is_operator, Ast.post_binding_power, Ast.binary_binding_power, Ast.scanner_token_to_ast_token] at h
        obtain ⟨h1, h2⟩ := h
        subst h1
        exact ⟨hsome, hwf⟩
      case Equals => simp [Ast.is_operator, Ast.post_binding_power, Ast.binary_binding_power, Ast.scanner_token_to_ast_token] at h
      case Bar =>
        simp [Ast.is_operator, Ast.post_binding_power, Ast.binary_binding_power, Ast.scanner_token_to_ast_token] at h
        obtain ⟨h1, h2⟩ := h
        subst h1
        exact ⟨hsome, hwf⟩
      case End =>
        simp [Ast.is_operator, Ast.post_binding_power, Ast.binary_binding_power, Ast.scanner_token_to_ast_token] at h
        obtain ⟨h1, h2⟩ := h
        subst h1
        exact ⟨hsome, hwf⟩
      case None => simp [Ast.is_operator, Ast.post_binding_power, Ast.binary_binding_power, Ast.scanner_token_to_ast_token] at h

/-- C6: whenever build succeeds, every node of the returned tree has the
    children its kind requires — binary kinds (Plus, Minus, Multiply,
    Divide, Modulo) both children, unary kinds (PrefixPlus, PrefixMinus,
    Factorial, Bar) the left child — so the evaluator, whose match on
    node kinds is exhaustive (which is what makes the source's catch-all
    panic arm unreachable), is total on it; and an absent node evaluates
    to 0. -/
theorem build_wf_evaluator_total (tokens : List Token) (root : Ast.NodePtr)
    (h : Ast.build tokens = Option.some (Except.ok root)) :
    wf root = true ∧ recursion Option.none = 0 := by
  refine ⟨?_, by simp [recursion]⟩
  unfold Ast.build at h
  cases hp : Ast.parse_expr (Ast.parse_fuel tokens) 0 ⟨tokens, 0⟩ ⟨STokenType.None, 0⟩ with
  | none => rw [hp] at h; simp at h
  | some r =>
    rw [hp] at h
    cases r with
    | error e => simp at h
    | ok pr =>
      obtain ⟨ptr, sf⟩ := pr
      simp only [Option.some.injEq, Except.ok.injEq] at h
      subst h
      exact ((parse_wf (Ast.parse_fuel tokens)).2.1 0 ⟨tokens, 0⟩
        ⟨STokenType.None, 0⟩ ptr sf hp).2

/-- C6 witness: the invariant at the concrete build of the token list of
    "1", whose tree is a single Number leaf. -/
theorem build_wf_evaluator_total_witness :
    wf (Option.some (Ast.Node.mk (Ast.TokenType.Number 1) Option.none Option.none)) = true ∧
    recursion Option.none = 0 :=
  build_wf_evaluator_total [⟨STokenType.Number 1, 0⟩, ⟨STokenType.End, 0⟩]
    (Option.some (Ast.Node.mk (Ast.TokenType.Number 1) Option.none Option.none)) rfl

end LrCalc
